import Mathlib

/-!
# Multi-vector retriever: parent/child indexing and two-stage retrieval

A shallow embedding of `src/multi-vector.js`.

* JavaScript strings are Lean `String`s; a metadata field that may be
  `undefined` is an `Option String`.
* The external collaborators (page loader, text splitters, `uuidv4`, vector
  store, LLM compressor) are parameters of the functions that use them.
* Asynchronous calls that may reject are `Except String` values; the calls made
  to collaborators and to the console are recorded in an explicit log.
-/

namespace MultiVector

/-! ## Data model -/

/-- The metadata object of a LangChain `Document`, restricted to the fields that
`multi-vector.js` reads or writes. `none` is JavaScript `undefined`. -/
structure Metadata where
  docType : Option String
  chunkId : Option String
  parentId : Option String
  source : Option String
  originalUrl : Option String
deriving DecidableEq

/-- A LangChain `Document`: text plus metadata. -/
structure Document where
  pageContent : String
  metadata : Metadata
deriving DecidableEq

/-- The metadata of a freshly loaded page, before `loadRawDocs` annotates it. -/
def Metadata.empty : Metadata :=
  { docType := none, chunkId := none, parentId := none, source := none, originalUrl := none }

/-! ## JavaScript primitives -/

/-- String conversion inside a template literal: `undefined` prints as the
nine characters of the word. -/
def templateString : Option String → String
  | some s => s
  | none => "undefined"

/-- The callback index form of `Array.prototype.map`, counting from `start`. -/
def mapWithIndexFrom {α β : Type} (f : α → Nat → β) : Nat → List α → List β
  | _, [] => []
  | start, x :: xs => f x start :: mapWithIndexFrom f (start + 1) xs

/-- The method `Array.prototype.map` with a two-argument callback `(element, index)`. -/
def mapWithIndex {α β : Type} (f : α → Nat → β) (xs : List α) : List β :=
  mapWithIndexFrom f 0 xs

/-- Insertion into a JavaScript `Set`, kept as the list of its elements in
insertion order: a value already present is not added again. -/
def setAdd {α : Type} [DecidableEq α] (s : List α) (x : α) : List α :=
  if x ∈ s then s else s ++ [x]

/-- The array `[...new Set(xs)]`: the elements of `xs` are inserted from left to right
into an empty set, and the set is spread in insertion order. -/
def spreadNewSet {α : Type} [DecidableEq α] (xs : List α) : List α :=
  xs.foldl setAdd []

/-! ## Text splitting (LangChain collaborator) -/

/-- The method `TextSplitter.splitDocuments` for a splitter whose `splitText` is the given
function: every document is cut into the spans of its text, in document order,
and every span is a new document carrying a copy of the metadata of the document
it was cut from. -/
def splitDocuments (splitText : String → List String) (docs : List Document) :
    List Document :=
  docs.flatMap fun d =>
    (splitText d.pageContent).map fun t => { pageContent := t, metadata := d.metadata }

/-- For every output of `splitDocuments`, in order, the position (counted from `p`) of the
input document it was cut from. -/
def splitOriginsFrom (splitText : String → List String) : Nat → List Document → List Nat
  | _, [] => []
  | p, d :: ds =>
    List.replicate (splitText d.pageContent).length p ++ splitOriginsFrom splitText (p + 1) ds

/-- For every output of `splitDocuments`, in order, the index of the input document it
was cut from. -/
def splitOrigins (splitText : String → List String) (docs : List Document) : List Nat :=
  splitOriginsFrom splitText 0 docs

/-! ## Hierarchy builder -/

/-- The function `createParentDocs` (lines 36-48). `parentSplitter` is the
`splitDocuments` method of the 1000/200 splitter and `uuidv4 k` is the value of
the `k`-th call of `uuidv4()`; the callback of `map` runs once per split, in
order, so split number `k` receives draw number `k`. -/
def createParentDocs (parentSplitter : List Document → List Document)
    (uuidv4 : Nat → String) (rawDocs : List Document) : List Document :=
  let parentSplits := parentSplitter rawDocs
  mapWithIndex (fun split k =>
    let chunkId := uuidv4 k
    { split with
      metadata := { split.metadata with
        docType := some "parent"
        chunkId := some chunkId
        parentId := some chunkId
        source := some chunkId } }) parentSplits

/-- The function `createChildDocs` (lines 50-65). `childSplitter` is the
`splitDocuments` method of the 400/50 splitter. -/
def createChildDocs (childSplitter : List Document → List Document)
    (parentDocs : List Document) : List Document :=
  let childSplits := childSplitter parentDocs
  mapWithIndex (fun split i =>
    let parentIndex := i / 4
    let parentMetadata := (parentDocs[parentIndex]?).map fun d => d.metadata
    let parentChunkId := parentMetadata.bind fun m => m.chunkId
    let chunkId := "child-" ++ templateString parentChunkId ++ "-" ++ toString i
    { split with
      metadata := { split.metadata with
        docType := some "child"
        parentId := parentChunkId
        chunkId := some chunkId
        source := some chunkId } }) childSplits

/-! ## Collaborators and the call log -/

/-- A metadata filter handed to the vector store: `docType` must equal the given
string and, when `sourceIn` is present, `source` must be one of the listed
values (the `$in` operator). The list holds `parentId` values, which may be
`undefined`. -/
structure Filter where
  docType : String
  sourceIn : Option (List (Option String))
deriving DecidableEq

/-- The filter `{ docType: "child" }` of the child search (line 122). -/
def childFilter : Filter := { docType := "child", sourceIn := none }

/-- The filter `{ docType: "parent", source: { $in: parentChunkIds } }` of the base
retriever (lines 152-155). -/
def parentFilter (parentChunkIds : List (Option String)) : Filter :=
  { docType := "parent", sourceIn := some parentChunkIds }

/-- One observable call made by the pipeline. -/
inductive Call where
  | consoleLog (line : String)
  | consoleLogDocs (label : String) (docs : List Document)
  | load (url : String)
  | addDocuments (docs : List Document)
  | similaritySearch (query : String) (k : Nat) (filter : Filter)
  | compress (query : String) (doc : Document)
deriving DecidableEq

/-- The external collaborators of the pipeline.

* `load url` is `new CheerioWebBaseLoader(url).load()`;
* `parentSplitter` and `childSplitter` are the `splitDocuments` methods of the two
  `RecursiveCharacterTextSplitter`s (1000/200 and 400/50);
* `uuidv4 k` is the value of the `k`-th call of `uuidv4()`;
* `addDocuments` and `similaritySearch` are the methods of the `PineconeStore`;
* `compress query doc` is the LLM extraction of one document: an excerpt, no
  relevant content (`none`), or a failure. -/
structure Collaborators where
  load : String → Except String (List Document)
  parentSplitter : List Document → List Document
  uuidv4 : Nat → String
  childSplitter : List Document → List Document
  addDocuments : List Document → Except String Unit
  similaritySearch : String → Nat → Filter → Except String (List Document)
  compress : String → Document → Except String (Option Document)

/-- The outcome of an asynchronous function: the value it resolves to or the error it
rejects with, and the calls it made, in order. -/
structure Outcome (α : Type) where
  result : Except String α
  log : List Call

/-- The combinator `Promise.all` over already started calls: the list of all values when every call
succeeds, otherwise a rejection (here that of the first failing call in list
order). -/
def promiseAll {α : Type} : List (Except String α) → Except String (List α)
  | [] => .ok []
  | .error e :: _ => .error e
  | .ok a :: rest =>
    match promiseAll rest with
    | .ok as => .ok (a :: as)
    | .error e => .error e

/-! ## Ingest -/

/-- The function `loadRawDocs` (lines 21-34): every url is loaded, every loaded page gets
`originalUrl` and `source` set to its url, and the pages are flattened in url
order. All loads are started before any is awaited. -/
def loadRawDocs (load : String → Except String (List Document)) (urls : List String) :
    Outcome (List Document) :=
  let allDocs := promiseAll (urls.map fun url =>
    match load url with
    | .ok docs => .ok (docs.map fun doc =>
        { doc with metadata := { doc.metadata with
            originalUrl := some url
            source := some url } })
    | .error e => .error e)
  { result := match allDocs with
      | .ok pages => .ok pages.flatten
      | .error e => .error e
    log := urls.map Call.load }

/-- The function `docEmbeddingMultiVector` (lines 67-99). The function body has no `return`
statement, so on success it resolves to `undefined`, written `none`; the type of
the value leaves room for a pair of counts. -/
def docEmbeddingMultiVector (c : Collaborators) (urls : List String) :
    Outcome (Option (Nat × Nat)) :=
  let loaded := loadRawDocs c.load urls
  let log1 := [Call.consoleLog " Loading raw documents..."] ++ loaded.log
  match loaded.result with
  | .error e => { result := .error e, log := log1 }
  | .ok rawDocs =>
    let parentDocs := createParentDocs c.parentSplitter c.uuidv4 rawDocs
    let childDocs := createChildDocs c.childSplitter parentDocs
    let log2 := log1 ++
      [Call.consoleLog "Creating parent chunks...",
       Call.consoleLogDocs "parentDoc   : " parentDocs,
       Call.consoleLog " Creating child chunks...",
       Call.consoleLog " Storing in Pinecone...",
       Call.addDocuments (parentDocs ++ childDocs)]
    match c.addDocuments (parentDocs ++ childDocs) with
    | .error e => { result := .error e, log := log2 }
    | .ok _ =>
      { result := .ok none
        log := log2 ++
          [Call.consoleLog ("✅ Single index: " ++ toString parentDocs.length ++
             " parent chunks + " ++ toString childDocs.length ++ " child chunks"),
           Call.consoleLog ("📊 Total documents: " ++
             toString (parentDocs.length + childDocs.length)),
           Call.consoleLog "finished embedding..."] }

/-! ## Query -/

/-- The method `LLMChainExtractor.compressDocuments` (LangChain): the LLM is called on every
document, all calls being started before any is awaited (`Promise.all`); the
documents for which it finds nothing are filtered out, the others keep their
order. -/
def LLMChainExtractor.compressDocuments (compress : String → Document → Except String (Option Document))
    (docs : List Document) (query : String) : Outcome (List Document) :=
  { result := match promiseAll (docs.map fun doc => compress query doc) with
      | .ok outputs => .ok (outputs.filterMap fun o => o)
      | .error e => .error e
    log := docs.map fun doc => Call.compress query doc }

/-- The method `ContextualCompressionRetriever.invoke` (LangChain) for the retriever built at
lines 148-159: the base retriever `vectorStore.asRetriever` with the given `k` and
`filter` is a similarity search of the store; its documents are handed to the
base compressor. Nothing is caught. -/
def ContextualCompressionRetriever.invoke (c : Collaborators) (k : Nat) (filter : Filter)
    (query : String) : Outcome (List Document) :=
  let log1 := [Call.similaritySearch query k filter]
  match c.similaritySearch query k filter with
  | .error e => { result := .error e, log := log1 }
  | .ok docs =>
    let compressed := LLMChainExtractor.compressDocuments c.compress docs query
    { result := compressed.result, log := log1 ++ compressed.log }

/-- The object returned by `queryMultiVector`. -/
structure QueryResult where
  query : String
  retrievedDocs : List Document
deriving DecidableEq

/-- The function `queryMultiVector` (lines 104-171). `kParents` is `none` when the caller
omits the argument, in which case the default `3` applies. -/
def queryMultiVector (c : Collaborators) (query : String) (kParents : Option Nat) :
    Outcome QueryResult :=
  let kParents := kParents.getD 3
  let log1 := [Call.similaritySearch query 10 childFilter]
  match c.similaritySearch query 10 childFilter with
  | .error e => { result := .error e, log := log1 }
  | .ok childDocs =>
    let parentChunkIds := spreadNewSet (childDocs.map fun child => child.metadata.parentId)
    let retrieved := ContextualCompressionRetriever.invoke c kParents
      (parentFilter parentChunkIds) query
    match retrieved.result with
    | .error e => { result := .error e, log := log1 ++ retrieved.log }
    | .ok retrievedDocs =>
      { result := .ok { query := query, retrievedDocs := retrievedDocs }
        log := log1 ++ retrieved.log }

/-- The position of the first occurrence of `a` in the list (`Array.prototype.indexOf`),
or the length of the list when `a` does not occur. -/
def firstIndexOf {α : Type} [DecidableEq α] (a : α) : List α → Nat
  | [] => 0
  | x :: xs => if x = a then 0 else firstIndexOf a xs + 1

/-- A hexadecimal digit, in either case. -/
def isHexDigit (c : Char) : Bool :=
  c.isDigit || (decide ('a' ≤ c) && decide (c ≤ 'f')) || (decide ('A' ≤ c) && decide (c ≤ 'F'))

/-- The textual form of an identifier returned by `uuidv4()`: 36 characters, each a
hexadecimal digit or a hyphen. -/
def isCanonicalUuid (s : String) : Bool :=
  s.length == 36 && s.data.all fun c => isHexDigit c || c == '-'

/-- The number written by a list of decimal digit characters. -/
def decodeDigits : List Char → Nat
  | [] => 0
  | c :: cs => (c.toNat - 48) * 10 ^ cs.length + decodeDigits cs

/-! ## Worked examples -/

/-- A raw page loaded from the url `u`, as annotated by `loadRawDocs`. -/
def examplePage : Document :=
  { pageContent := "text"
    metadata := { Metadata.empty with originalUrl := some "u", source := some "u" } }

/-- The parent chunk made from `examplePage` with the identifier
`3f2b8c1e-5a4d-4e6f-9b7a-0c1d2e3f4a5b`. -/
def exampleParent : Document :=
  { pageContent := "text",
    metadata :=
      { docType := some "parent"
        chunkId := some "3f2b8c1e-5a4d-4e6f-9b7a-0c1d2e3f4a5b"
        parentId := some "3f2b8c1e-5a4d-4e6f-9b7a-0c1d2e3f4a5b"
        source := some "3f2b8c1e-5a4d-4e6f-9b7a-0c1d2e3f4a5b"
        originalUrl := some "u" } }

/-- A second parent chunk, with the identifier `9a8b7c6d-1e2f-4a3b-8c4d-5e6f7a8b9c0d`. -/
def exampleParent2 : Document :=
  { pageContent := "chunk",
    metadata :=
      { docType := some "parent"
        chunkId := some "9a8b7c6d-1e2f-4a3b-8c4d-5e6f7a8b9c0d"
        parentId := some "9a8b7c6d-1e2f-4a3b-8c4d-5e6f7a8b9c0d"
        source := some "9a8b7c6d-1e2f-4a3b-8c4d-5e6f7a8b9c0d"
        originalUrl := some "u" } }

/-- Two draws of `uuidv4`. -/
def exampleUuids (k : Nat) : String :=
  if k = 0 then "3f2b8c1e-5a4d-4e6f-9b7a-0c1d2e3f4a5b" else "9a8b7c6d-1e2f-4a3b-8c4d-5e6f7a8b9c0d"

/-- A `splitText` that keeps a text whole, as the 400/50 splitter does for a text of at most
400 characters. -/
def keepWhole (t : String) : List String := [t]

/-- A `splitText` that cuts every text into its characters. -/
def splitChars (t : String) : List String := t.data.map fun ch => String.singleton ch

/-- The child chunk cut from the last character of the text of `exampleParent`. -/
def exampleChild : Document :=
  { pageContent := "t",
    metadata :=
      { docType := some "child"
        chunkId := some "child-3f2b8c1e-5a4d-4e6f-9b7a-0c1d2e3f4a5b-3"
        parentId := some "3f2b8c1e-5a4d-4e6f-9b7a-0c1d2e3f4a5b"
        source := some "child-3f2b8c1e-5a4d-4e6f-9b7a-0c1d2e3f4a5b-3"
        originalUrl := some "u" } }

/-- The three parents returned by the parent search of `exampleCollaborators`. -/
def exampleParents : List Document :=
  [exampleParent, exampleParent2, { exampleParent with pageContent := "third" }]

/-- The excerpt that the example compressors return for a document. -/
def exampleExcerpt (doc : Document) : Document :=
  { doc with pageContent := "excerpt of " ++ doc.pageContent }

/-- Collaborators over an index that holds `exampleParent`, `exampleParent2` and a third
parent, and whose compressor fails on `exampleParent2`: the loader returns
`examplePage` for every url, the splitters keep every text whole, a child search
finds `exampleChild`, and a parent search returns the three parents. -/
def exampleCollaborators : Collaborators :=
  { load := fun _ => .ok [{ pageContent := "text", metadata := Metadata.empty }]
    parentSplitter := id
    uuidv4 := exampleUuids
    childSplitter := splitDocuments keepWhole
    addDocuments := fun _ => .ok ()
    similaritySearch := fun _ _ filter =>
      if filter.docType = "child" then .ok [exampleChild]
      else .ok exampleParents
    compress := fun _ doc =>
      if doc = exampleParent2 then .error "provider timeout"
      else .ok (some (exampleExcerpt doc)) }

/-- Collaborators over an empty index: every search returns no document. -/
def emptyIndexCollaborators : Collaborators :=
  { exampleCollaborators with similaritySearch := fun _ _ _ => .ok [] }

/-- Collaborators whose compressor succeeds on every document. -/
def reliableCollaborators : Collaborators :=
  { exampleCollaborators with
    compress := fun _ doc => .ok (some (exampleExcerpt doc)) }

/-- The documents handed to `addDocuments` in the calls of a log, in call order. -/
def addDocumentsCalls (log : List Call) : List (List Document) :=
  log.filterMap fun call =>
    match call with
    | .addDocuments docs => some docs
    | _ => none

/-- The LLM calls of a log: the documents handed to the compressor, in call order. -/
def compressCalls (log : List Call) : List Document :=
  log.filterMap fun call =>
    match call with
    | .compress _ doc => some doc
    | _ => none

/-- A child search result whose `parentId` is the given string. -/
def childOf (parentId : String) : Document :=
  { exampleChild with metadata := { exampleChild.metadata with parentId := some parentId } }

/-! ## Lemmas on the primitives -/

theorem length_mapWithIndexFrom {α β : Type} (f : α → Nat → β) (xs : List α) (start : Nat) :
    (mapWithIndexFrom f start xs).length = xs.length := by
  induction xs generalizing start with
  | nil => rfl
  | cons x xs ih => simp [mapWithIndexFrom, ih]

theorem getElem?_mapWithIndexFrom {α β : Type} (f : α → Nat → β) (xs : List α)
    (start i : Nat) :
    (mapWithIndexFrom f start xs)[i]? = (xs[i]?).map fun x => f x (start + i) := by
  induction xs generalizing start i with
  | nil => simp [mapWithIndexFrom]
  | cons x xs ih =>
    cases i with
    | zero => simp [mapWithIndexFrom]
    | succ i =>
      simp only [mapWithIndexFrom, List.getElem?_cons_succ, ih]
      have h : start + 1 + i = start + (i + 1) := by omega
      rw [h]

theorem length_mapWithIndex {α β : Type} (f : α → Nat → β) (xs : List α) :
    (mapWithIndex f xs).length = xs.length :=
  length_mapWithIndexFrom f xs 0

theorem getElem?_mapWithIndex {α β : Type} (f : α → Nat → β) (xs : List α) (i : Nat) :
    (mapWithIndex f xs)[i]? = (xs[i]?).map fun x => f x i := by
  simp [mapWithIndex, getElem?_mapWithIndexFrom]

theorem length_splitOriginsFrom (splitText : String → List String) (p : Nat)
    (docs : List Document) :
    (splitOriginsFrom splitText p docs).length = (splitDocuments splitText docs).length := by
  induction docs generalizing p with
  | nil => rfl
  | cons d ds ih =>
    simp only [splitOriginsFrom, List.length_append, List.length_replicate, ih, splitDocuments,
      List.flatMap_cons, List.length_map]

theorem length_splitDocuments_of_four (splitText : String → List String)
    (docs : List Document) (h : ∀ d ∈ docs, (splitText d.pageContent).length = 4) :
    (splitDocuments splitText docs).length = 4 * docs.length := by
  induction docs with
  | nil => rfl
  | cons d ds ih =>
    have hd := h d (List.mem_cons_self d ds)
    have ht := ih fun e he => h e (List.mem_cons_of_mem d he)
    simp only [splitDocuments, List.flatMap_cons, List.length_append, List.length_map,
      List.length_cons] at ht ⊢
    omega

theorem getElem?_splitOriginsFrom_of_four (splitText : String → List String)
    (docs : List Document) (h : ∀ d ∈ docs, (splitText d.pageContent).length = 4)
    (p i : Nat) (hi : i < 4 * docs.length) :
    (splitOriginsFrom splitText p docs)[i]? = some (p + i / 4) := by
  induction docs generalizing p i with
  | nil => simp at hi
  | cons d ds ih =>
    have hd := h d (List.mem_cons_self d ds)
    have ht := ih fun e he => h e (List.mem_cons_of_mem d he)
    simp only [splitOriginsFrom, hd]
    by_cases h4 : i < 4
    · rw [List.getElem?_append_left (by simpa using h4)]
      have h0 : i / 4 = 0 := by omega
      simp only [List.getElem?_replicate, h4, h0, if_true, Nat.add_zero]
    · rw [List.getElem?_append_right (by simp; omega)]
      simp only [List.length_replicate]
      rw [ht (p + 1) (i - 4) (by simp only [List.length_cons] at hi; omega)]
      congr 1
      omega

/-! ## Hierarchy builder: parents -/

/-- Claim C4. Every parent chunk returned by `createParentDocs` has `docType` equal to
`"parent"`, and its `chunkId`, `parentId` and `source` are all the identifier drawn
for it by `uuidv4` (so `parentId == chunkId` and `source == chunkId`); it is built
from the parent split at the same position, whose text it keeps. -/
theorem createParentDocs_self_reference (parentSplitter : List Document → List Document)
    (uuidv4 : Nat → String) (rawDocs : List Document) (k : Nat) (d : Document)
    (h : (createParentDocs parentSplitter uuidv4 rawDocs)[k]? = some d) :
    d.metadata.docType = some "parent" ∧
    d.metadata.chunkId = some (uuidv4 k) ∧
    d.metadata.parentId = some (uuidv4 k) ∧
    d.metadata.source = some (uuidv4 k) ∧
    d.metadata.parentId = d.metadata.chunkId ∧
    d.metadata.source = d.metadata.chunkId ∧
    ∃ split, (parentSplitter rawDocs)[k]? = some split ∧
      d.pageContent = split.pageContent := by
  simp only [createParentDocs, getElem?_mapWithIndex, Option.map_eq_some'] at h
  obtain ⟨split, hs, rfl⟩ := h
  exact ⟨rfl, rfl, rfl, rfl, rfl, rfl, split, hs, rfl⟩

/-- Witness for `createParentDocs_self_reference`: one raw page, kept whole by the
parent splitter, with one drawn identifier. -/
theorem createParentDocs_self_reference_witness :
    (createParentDocs id exampleUuids [examplePage])[0]? =
      some exampleParent ∧
    exampleParent.metadata.parentId = exampleParent.metadata.chunkId :=
  ⟨by decide,
   (createParentDocs_self_reference id exampleUuids [examplePage] 0 exampleParent
      (by decide)).2.2.2.2.1⟩

/-! ## Candidate derivation -/

theorem mem_foldl_setAdd {α : Type} [DecidableEq α] (xs acc : List α) (a : α) :
    a ∈ xs.foldl setAdd acc ↔ a ∈ acc ∨ a ∈ xs := by
  induction xs generalizing acc with
  | nil => simp
  | cons x xs ih =>
    simp only [List.foldl_cons, ih, setAdd, List.mem_cons]
    by_cases hx : x ∈ acc
    · simp only [hx, if_true]
      constructor
      · rintro (h | h)
        · exact Or.inl h
        · exact Or.inr (Or.inr h)
      · rintro (h | h | h)
        · exact Or.inl h
        · exact Or.inl (h ▸ hx)
        · exact Or.inr h
    · simp only [hx, if_false, List.mem_append, List.mem_singleton]
      tauto

theorem nodup_foldl_setAdd {α : Type} [DecidableEq α] (xs acc : List α) (h : acc.Nodup) :
    (xs.foldl setAdd acc).Nodup := by
  induction xs generalizing acc with
  | nil => simpa using h
  | cons x xs ih =>
    simp only [List.foldl_cons]
    apply ih
    unfold setAdd
    by_cases hx : x ∈ acc
    · simpa [hx] using h
    · simp only [hx, if_false]
      exact List.Nodup.append h (List.nodup_singleton x) (by simpa using hx)

theorem firstIndexOf_lt_length {α : Type} [DecidableEq α] (a : α) (l : List α)
    (h : a ∈ l) : firstIndexOf a l < l.length := by
  induction l with
  | nil => simp at h
  | cons x xs ih =>
    simp only [firstIndexOf, List.length_cons]
    by_cases hx : x = a
    · simp [hx]
    · simp only [hx, if_false]
      have := ih (by simpa [Ne.symm hx] using h)
      omega

theorem firstIndexOf_append_of_mem {α : Type} [DecidableEq α] (a : α) (l₁ l₂ : List α)
    (h : a ∈ l₁) : firstIndexOf a (l₁ ++ l₂) = firstIndexOf a l₁ := by
  induction l₁ with
  | nil => simp at h
  | cons x xs ih =>
    rw [List.cons_append]
    simp only [firstIndexOf]
    by_cases hx : x = a
    · simp [hx]
    · simp only [hx, if_false]
      rw [ih (by simpa [Ne.symm hx] using h)]

theorem firstIndexOf_append_of_not_mem {α : Type} [DecidableEq α] (a : α) (l₁ l₂ : List α)
    (h : a ∉ l₁) : firstIndexOf a (l₁ ++ l₂) = l₁.length + firstIndexOf a l₂ := by
  induction l₁ with
  | nil => simp
  | cons x xs ih =>
    simp only [List.mem_cons, not_or] at h
    rw [List.cons_append]
    simp only [firstIndexOf, Ne.symm h.1, if_false, ih h.2, List.length_cons]
    omega

theorem firstIndexOf_foldl_setAdd {α : Type} [DecidableEq α] (xs acc : List α) (a b : α)
    (ha : a ∈ xs.foldl setAdd acc) (hb : b ∈ xs.foldl setAdd acc) :
    (firstIndexOf a (xs.foldl setAdd acc) < firstIndexOf b (xs.foldl setAdd acc) ↔
      firstIndexOf a (acc ++ xs) < firstIndexOf b (acc ++ xs)) := by
  induction xs generalizing acc with
  | nil => simp
  | cons x xs ih =>
    simp only [List.foldl_cons] at ha hb ⊢
    rw [ih _ ha hb]
    unfold setAdd
    by_cases hx : x ∈ acc
    · simp only [hx, if_true]
      have key : ∀ c : α, (firstIndexOf c (acc ++ x :: xs) = firstIndexOf c acc ∧
            firstIndexOf c (acc ++ xs) = firstIndexOf c acc ∧ firstIndexOf c acc < acc.length) ∨
          (firstIndexOf c (acc ++ x :: xs) = acc.length + (firstIndexOf c xs + 1) ∧
            firstIndexOf c (acc ++ xs) = acc.length + firstIndexOf c xs) := by
        intro c
        by_cases hc : c ∈ acc
        · exact Or.inl ⟨firstIndexOf_append_of_mem c acc _ hc,
            firstIndexOf_append_of_mem c acc _ hc, firstIndexOf_lt_length c acc hc⟩
        · refine Or.inr ⟨?_, firstIndexOf_append_of_not_mem c acc _ hc⟩
          have hxc : x ≠ c := fun e => hc (e ▸ hx)
          rw [firstIndexOf_append_of_not_mem c acc _ hc]
          simp only [firstIndexOf, hxc, if_false]
      rcases key a with ⟨a1, a2, a3⟩ | ⟨a1, a2⟩ <;>
        rcases key b with ⟨b1, b2, b3⟩ | ⟨b1, b2⟩ <;>
        rw [a1, a2, b1, b2] <;> omega
    · simp only [hx, if_false, List.append_assoc, List.singleton_append]

/-- Claim C5. The candidate list `parentChunkIds = [...new Set(childDocs.map(c => c.metadata.parentId))]`
has no duplicates, has exactly the `parentId` values that occur among the results,
and lists them in order of first occurrence; parent ids `[P1, P2, P1, P3]` give
`[P1, P2, P3]`. -/
theorem parentChunkIds_dedup_first_seen (childDocs : List Document) :
    (spreadNewSet (childDocs.map fun c => c.metadata.parentId)).Nodup ∧
    (∀ p, p ∈ spreadNewSet (childDocs.map fun c => c.metadata.parentId) ↔
      p ∈ childDocs.map fun c => c.metadata.parentId) ∧
    (∀ p q, p ∈ childDocs.map (fun c => c.metadata.parentId) →
      q ∈ childDocs.map (fun c => c.metadata.parentId) →
      (firstIndexOf p (spreadNewSet (childDocs.map fun c => c.metadata.parentId)) <
          firstIndexOf q (spreadNewSet (childDocs.map fun c => c.metadata.parentId)) ↔
        firstIndexOf p (childDocs.map fun c => c.metadata.parentId) <
          firstIndexOf q (childDocs.map fun c => c.metadata.parentId))) ∧
    (∀ P1 P2 P3 : Option String, P1 ≠ P2 → P1 ≠ P3 → P2 ≠ P3 →
      (childDocs.map fun c => c.metadata.parentId) = [P1, P2, P1, P3] →
      spreadNewSet (childDocs.map fun c => c.metadata.parentId) = [P1, P2, P3]) := by
  refine ⟨nodup_foldl_setAdd _ [] List.nodup_nil, ?_, ?_, ?_⟩
  · intro p
    simp [spreadNewSet, mem_foldl_setAdd]
  · intro p q hp hq
    have hp2 : p ∈ (childDocs.map fun c => c.metadata.parentId).foldl setAdd [] :=
      (mem_foldl_setAdd _ [] p).mpr (Or.inr hp)
    have hq2 : q ∈ (childDocs.map fun c => c.metadata.parentId).foldl setAdd [] :=
      (mem_foldl_setAdd _ [] q).mpr (Or.inr hq)
    simpa [spreadNewSet] using firstIndexOf_foldl_setAdd _ [] p q hp2 hq2
  · intro P1 P2 P3 h12 h13 h23 hids
    rw [hids]
    simp [spreadNewSet, setAdd, h12, h13, h23, Ne.symm h12, Ne.symm h13, Ne.symm h23]

/-- Witness for `parentChunkIds_dedup_first_seen`: four child results with parent ids
`[P1, P2, P1, P3]`. -/
theorem parentChunkIds_dedup_first_seen_witness :
    spreadNewSet ([childOf "P1", childOf "P2", childOf "P1", childOf "P3"].map
        fun c => c.metadata.parentId) =
      [some "P1", some "P2", some "P3"] :=
  (parentChunkIds_dedup_first_seen
      [childOf "P1", childOf "P2", childOf "P1", childOf "P3"]).2.2.2
    (some "P1") (some "P2") (some "P3") (by decide) (by decide) (by decide) rfl

/-! ## Decimal numerals and identifiers -/

theorem digitChar_ne_hyphen (k : Nat) (h : k < 10) : Nat.digitChar k ≠ '-' := by
  interval_cases k <;> decide

theorem toNat_digitChar (k : Nat) (h : k < 10) : (Nat.digitChar k).toNat - 48 = k := by
  interval_cases k <;> rfl

theorem hyphen_not_mem_toDigitsCore (fuel n : Nat) (ds : List Char) (h : '-' ∉ ds) :
    '-' ∉ Nat.toDigitsCore 10 fuel n ds := by
  induction fuel generalizing n ds with
  | zero => simpa [Nat.toDigitsCore] using h
  | succ fuel ih =>
    have hd : '-' ∉ Nat.digitChar (n % 10) :: ds := by
      simp only [List.mem_cons, not_or]
      exact ⟨fun e => digitChar_ne_hyphen _ (Nat.mod_lt _ (by decide)) e.symm, h⟩
    simp only [Nat.toDigitsCore]
    split
    · exact hd
    · exact ih _ _ hd

theorem decodeDigits_toDigitsCore (fuel n : Nat) (ds : List Char) (h : n < fuel) :
    ∃ pre, Nat.toDigitsCore 10 fuel n ds = pre ++ ds ∧ decodeDigits pre = n := by
  induction fuel generalizing n ds with
  | zero => omega
  | succ fuel ih =>
    simp only [Nat.toDigitsCore]
    have hmod : (Nat.digitChar (n % 10)).toNat - 48 = n % 10 :=
      toNat_digitChar _ (Nat.mod_lt _ (by decide))
    split
    · rename_i h0
      refine ⟨[Nat.digitChar (n % 10)], rfl, ?_⟩
      simp only [decodeDigits, hmod, List.length_nil, pow_zero]
      omega
    · rename_i h0
      obtain ⟨pre, hpre, hdec⟩ := ih (n / 10) (Nat.digitChar (n % 10) :: ds) (by omega)
      refine ⟨pre ++ [Nat.digitChar (n % 10)], by simp [hpre], ?_⟩
      have happ : ∀ (l : List Char) (c : Char),
          decodeDigits (l ++ [c]) = decodeDigits l * 10 + (c.toNat - 48) := by
        intro l c
        induction l with
        | nil => simp [decodeDigits]
        | cons x xs ihx =>
          rw [List.cons_append]
          simp only [decodeDigits, ihx, List.length_append, List.length_singleton, pow_succ]
          ring
      rw [happ, hdec, hmod]
      omega

theorem toDigits_injective (n m : Nat) (h : Nat.toDigits 10 n = Nat.toDigits 10 m) : n = m := by
  obtain ⟨p, hp, hn⟩ := decodeDigits_toDigitsCore (n + 1) n [] (by omega)
  obtain ⟨q, hq, hm⟩ := decodeDigits_toDigitsCore (m + 1) m [] (by omega)
  simp only [Nat.toDigits] at h
  rw [hp, hq] at h
  simp only [List.append_nil] at h
  rw [← hn, ← hm, h]

theorem data_toString_nat (i : Nat) : (toString i).data = Nat.toDigits 10 i := rfl

theorem hyphen_not_mem_toString (i : Nat) : '-' ∉ (toString i).data := by
  rw [data_toString_nat]
  exact hyphen_not_mem_toDigitsCore _ _ [] (by simp)

theorem eq_of_append_hyphen_eq (x y di dj : List Char) (hi : '-' ∉ di) (hj : '-' ∉ dj)
    (h : x ++ '-' :: di = y ++ '-' :: dj) : di = dj := by
  rcases List.append_eq_append_iff.mp h with ⟨a, _, ha⟩ | ⟨a, _, ha⟩
  · cases a with
    | nil => simpa using ha
    | cons c t =>
      simp only [List.cons_append, List.cons.injEq] at ha
      exact absurd (ha.2 ▸ by simp) hi
  · cases a with
    | nil => simpa using ha.symm
    | cons c t =>
      simp only [List.cons_append, List.cons.injEq] at ha
      exact absurd (ha.2 ▸ by simp) hj

/-- Two child identifiers built by the template of line 61 with different indices
are different strings. -/
theorem childId_injective (x y : String) (i j : Nat)
    (h : "child-" ++ x ++ "-" ++ toString i = "child-" ++ y ++ "-" ++ toString j) : i = j := by
  have hd := congrArg String.data h
  simp only [String.data_append, List.append_assoc] at hd
  have hd2 := List.append_cancel_left hd
  have h3 : (toString i).data = (toString j).data :=
    eq_of_append_hyphen_eq x.data y.data _ _ (hyphen_not_mem_toString i)
      (hyphen_not_mem_toString j) hd2
  exact toDigits_injective i j h3

/-- A child identifier is never a canonical identifier of `uuidv4`: its second
character is `h`. -/
theorem childId_not_canonical (x : String) (i : Nat) :
    isCanonicalUuid ("child-" ++ x ++ "-" ++ toString i) = false := by
  have hmem : 'h' ∈ ("child-" ++ x ++ "-" ++ toString i).data := by
    simp only [String.data_append, List.append_assoc]
    exact List.mem_append_left _ (by decide)
  cases hc : isCanonicalUuid ("child-" ++ x ++ "-" ++ toString i) with
  | false => rfl
  | true =>
    simp only [isCanonicalUuid, Bool.and_eq_true, List.all_eq_true] at hc
    have := hc.2 'h' hmem
    exact absurd this (by decide)

/-! ## Uniqueness of identifiers -/

theorem chunkId_of_getElem?_createParentDocs (parentSplitter : List Document → List Document)
    (uuidv4 : Nat → String) (rawDocs : List Document) (k : Nat) (d : Document)
    (h : (createParentDocs parentSplitter uuidv4 rawDocs)[k]? = some d) :
    d.metadata.chunkId = some (uuidv4 k) := by
  simp only [createParentDocs, getElem?_mapWithIndex, Option.map_eq_some'] at h
  obtain ⟨split, _, rfl⟩ := h
  rfl

theorem length_createParentDocs (parentSplitter : List Document → List Document)
    (uuidv4 : Nat → String) (rawDocs : List Document) :
    (createParentDocs parentSplitter uuidv4 rawDocs).length = (parentSplitter rawDocs).length := by
  simp [createParentDocs, length_mapWithIndex]

theorem chunkId_of_getElem?_createChildDocs (childSplitter : List Document → List Document)
    (parentDocs : List Document) (i : Nat) (c : Document)
    (h : (createChildDocs childSplitter parentDocs)[i]? = some c) :
    ∃ x, c.metadata.chunkId = some ("child-" ++ x ++ "-" ++ toString i) := by
  simp only [createChildDocs, getElem?_mapWithIndex, Option.map_eq_some'] at h
  obtain ⟨split, _, rfl⟩ := h
  exact ⟨_, rfl⟩

/-- Claim C3. When the identifiers drawn by `uuidv4` for the parent splits are pairwise
distinct and each is in canonical form (36 characters, hexadecimal digits and
hyphens), the `chunkId` values of `[...parentDocs, ...childDocs]` are pairwise
distinct, whatever the parent splitter and the child splitter return. -/
theorem chunkIds_pairwise_distinct (parentSplitter childSplitter : List Document → List Document)
    (uuidv4 : Nat → String) (rawDocs : List Document)
    (hdistinct : ∀ i < (parentSplitter rawDocs).length, ∀ j < (parentSplitter rawDocs).length,
      uuidv4 i = uuidv4 j → i = j)
    (hcanonical : ∀ i < (parentSplitter rawDocs).length, isCanonicalUuid (uuidv4 i) = true) :
    ((createParentDocs parentSplitter uuidv4 rawDocs ++
        createChildDocs childSplitter (createParentDocs parentSplitter uuidv4 rawDocs)).map
      fun d => d.metadata.chunkId).Nodup := by
  rw [List.nodup_iff_getElem?_ne_getElem?]
  intro i j hij hj heq
  have hlen := length_createParentDocs parentSplitter uuidv4 rawDocs
  simp only [List.getElem?_map, List.length_map] at heq hj
  obtain ⟨dj, hdj⟩ : ∃ dj, (createParentDocs parentSplitter uuidv4 rawDocs ++
      createChildDocs childSplitter (createParentDocs parentSplitter uuidv4 rawDocs))[j]? =
      some dj := ⟨_, List.getElem?_eq_getElem hj⟩
  obtain ⟨di, hdi⟩ : ∃ di, (createParentDocs parentSplitter uuidv4 rawDocs ++
      createChildDocs childSplitter (createParentDocs parentSplitter uuidv4 rawDocs))[i]? =
      some di := ⟨_, List.getElem?_eq_getElem (by omega)⟩
  rw [hdi, hdj] at heq
  simp only [Option.map_some', Option.some.injEq] at heq
  by_cases hjn : j < (createParentDocs parentSplitter uuidv4 rawDocs).length
  · -- two parents
    rw [List.getElem?_append_left hjn] at hdj
    rw [List.getElem?_append_left (by omega)] at hdi
    have hi := chunkId_of_getElem?_createParentDocs _ _ _ _ _ hdi
    have hj2 := chunkId_of_getElem?_createParentDocs _ _ _ _ _ hdj
    rw [hi, hj2, Option.some.injEq] at heq
    have := hdistinct i (by omega) j (by omega) heq
    omega
  · rw [List.getElem?_append_right (by omega)] at hdj
    obtain ⟨y, hy⟩ := chunkId_of_getElem?_createChildDocs _ _ _ _ hdj
    by_cases hin : i < (createParentDocs parentSplitter uuidv4 rawDocs).length
    · -- a parent and a child
      rw [List.getElem?_append_left hin] at hdi
      have hi := chunkId_of_getElem?_createParentDocs _ _ _ _ _ hdi
      rw [hi, hy, Option.some.injEq] at heq
      have hc := hcanonical i (by omega)
      rw [heq, childId_not_canonical] at hc
      exact Bool.noConfusion hc
    · -- two children
      rw [List.getElem?_append_right (by omega)] at hdi
      obtain ⟨x, hx⟩ := chunkId_of_getElem?_createChildDocs _ _ _ _ hdi
      rw [hx, hy, Option.some.injEq] at heq
      have := childId_injective _ _ _ _ heq
      omega

/-- Witness for `chunkIds_pairwise_distinct`: two parent splits with two distinct
canonical identifiers, each split kept whole by the child splitter. -/
theorem chunkIds_pairwise_distinct_witness :
    (∀ i < (id [examplePage, examplePage] : List Document).length,
      ∀ j < (id [examplePage, examplePage] : List Document).length,
      exampleUuids i = exampleUuids j → i = j) ∧
    (∀ i < (id [examplePage, examplePage] : List Document).length,
      isCanonicalUuid (exampleUuids i) = true) ∧
    ((createParentDocs id exampleUuids [examplePage, examplePage] ++
        createChildDocs (splitDocuments keepWhole)
          (createParentDocs id exampleUuids [examplePage, examplePage])).map
      fun d => d.metadata.chunkId).Nodup :=
  ⟨by decide, by decide,
   chunkIds_pairwise_distinct id (splitDocuments keepWhole) exampleUuids
     [examplePage, examplePage] (by decide) (by decide)⟩

/-! ## Hierarchy builder: children -/

theorem getElem?_splitDocuments_of_four (splitText : String → List String)
    (docs : List Document) (h : ∀ d ∈ docs, (splitText d.pageContent).length = 4)
    (i : Nat) (hi : i < 4 * docs.length) :
    ∃ parent t, docs[i / 4]? = some parent ∧
      (splitText parent.pageContent)[i % 4]? = some t ∧
      (splitDocuments splitText docs)[i]? =
        some { pageContent := t, metadata := parent.metadata } := by
  induction docs generalizing i with
  | nil => simp at hi
  | cons d ds ih =>
    have hd := h d (List.mem_cons_self d ds)
    have ht := ih fun e he => h e (List.mem_cons_of_mem d he)
    simp only [splitDocuments, List.flatMap_cons] at ht ⊢
    by_cases h4 : i < 4
    · have h0 : i / 4 = 0 := by omega
      have hm : i % 4 = i := by omega
      have hlt : i < (splitText d.pageContent).length := by omega
      refine ⟨d, (splitText d.pageContent)[i], by simp [h0], ?_, ?_⟩
      · rw [hm]
        exact List.getElem?_eq_getElem hlt
      · rw [List.getElem?_append_left (by simpa using hlt)]
        simp [List.getElem?_eq_getElem hlt]
    · simp only [List.length_cons] at hi
      obtain ⟨parent, t, hp, hs, hc⟩ := ht (i - 4) (by omega)
      refine ⟨parent, t, ?_, ?_, ?_⟩
      · have e : i / 4 = (i - 4) / 4 + 1 := by omega
        rw [e, List.getElem?_cons_succ]
        exact hp
      · have e : i % 4 = (i - 4) % 4 := by omega
        rw [e]
        exact hs
      · rw [List.getElem?_append_right (by simp; omega)]
        simp only [List.length_map, hd]
        exact hc

/-- Claim C10. When the child splitter cuts exactly 4 spans from the text of every parent,
the child chunk at global index `i` returned by `createChildDocs` is the span
number `i % 4` of parent number `i / 4`, the parent it was cut from; its `parentId` is
that parent's `chunkId`, and its `chunkId` is `"child-"`, that parent's `chunkId`, `"-"` and
the decimal numeral of `i`. There are 4 children per parent. -/
theorem createChildDocs_linkage_of_four (splitText : String → List String)
    (parentDocs : List Document)
    (h : ∀ d ∈ parentDocs, (splitText d.pageContent).length = 4)
    (i : Nat) (child : Document)
    (hc : (createChildDocs (splitDocuments splitText) parentDocs)[i]? = some child) :
    (createChildDocs (splitDocuments splitText) parentDocs).length = 4 * parentDocs.length ∧
    (splitOrigins splitText parentDocs)[i]? = some (i / 4) ∧
    ∃ parent, parentDocs[i / 4]? = some parent ∧
      (splitText parent.pageContent)[i % 4]? = some child.pageContent ∧
      child.metadata.docType = some "child" ∧
      child.metadata.parentId = parent.metadata.chunkId ∧
      child.metadata.chunkId =
        some ("child-" ++ templateString parent.metadata.chunkId ++ "-" ++ toString i) ∧
      child.metadata.source = child.metadata.chunkId := by
  have hlen : (createChildDocs (splitDocuments splitText) parentDocs).length =
      4 * parentDocs.length := by
    simp only [createChildDocs, length_mapWithIndex]
    exact length_splitDocuments_of_four splitText parentDocs h
  have hi : i < 4 * parentDocs.length := by
    rw [← hlen]
    exact (List.getElem?_eq_some.mp hc).1
  obtain ⟨parent, t, hp, hs, hd⟩ := getElem?_splitDocuments_of_four splitText parentDocs h i hi
  refine ⟨hlen, ?_, parent, hp, ?_⟩
  · simpa [splitOrigins] using getElem?_splitOriginsFrom_of_four splitText parentDocs h 0 i hi
  · simp only [createChildDocs, getElem?_mapWithIndex, hd, Option.map_some', Option.some.injEq,
      hp] at hc
    subst hc
    exact ⟨hs, rfl, rfl, rfl, rfl⟩

/-- Witness for `createChildDocs_linkage_of_four`: one parent whose four-character text
is cut into its four characters; the child at index 3. -/
theorem createChildDocs_linkage_of_four_witness :
    (∀ d ∈ [exampleParent], (splitChars d.pageContent).length = 4) ∧
    (createChildDocs (splitDocuments splitChars) [exampleParent])[3]? = some exampleChild ∧
    (splitOrigins splitChars [exampleParent])[3]? = some (3 / 4) :=
  ⟨by decide, by decide,
   (createChildDocs_linkage_of_four splitChars [exampleParent] (by decide) 3 exampleChild
      (by decide)).2.1⟩

/-- Claim C1, evaluated on two parents whose texts the child splitter keeps whole. The
second child is cut from the second parent, but `createChildDocs` gives it the
`chunkId` of the first parent as `parentId`, since `Math.floor(1 / 4)` is `0`. -/
theorem createChildDocs_links_by_position :
    (splitOrigins keepWhole [exampleParent, exampleParent2])[1]? = some 1 ∧
    ((createChildDocs (splitDocuments keepWhole) [exampleParent, exampleParent2])[1]?).map
        (fun child => (child.pageContent, child.metadata.parentId)) =
      some ("chunk", exampleParent.metadata.chunkId) ∧
    exampleParent.metadata.chunkId ≠ exampleParent2.metadata.chunkId := by
  decide

/-- Claim C2, evaluated on one parent from whose text the child splitter cuts five spans.
The fifth child looks up `parentDocs[1]`, outside the list: its `parentId` is
`undefined` and its `chunkId` is `child-undefined-4`. -/
theorem createChildDocs_parentId_undefined :
    (createChildDocs (splitDocuments splitChars) [exampleParent2]).length = 5 ∧
    ((createChildDocs (splitDocuments splitChars) [exampleParent2])[4]?).map
        (fun child => (child.metadata.parentId, child.metadata.chunkId)) =
      some (none, some "child-undefined-4") := by
  decide

/-! ## Query pipeline -/

theorem promiseAll_error_of_mem {α : Type} (l : List (Except String α)) (e : String)
    (h : Except.error e ∈ l) : ∃ e', promiseAll l = .error e' := by
  induction l with
  | nil => simp at h
  | cons x xs ih =>
    cases x with
    | error e0 => exact ⟨e0, rfl⟩
    | ok a =>
      have hx : Except.error e ∈ xs := by simpa using h
      obtain ⟨e', he⟩ := ih hx
      exact ⟨e', by simp [promiseAll, he]⟩

theorem promiseAll_map_ok {α β : Type} (l : List α) (f : α → Except String β) (g : α → β)
    (h : ∀ a ∈ l, f a = .ok (g a)) : promiseAll (l.map f) = .ok (l.map g) := by
  induction l with
  | nil => rfl
  | cons x xs ih =>
    have hx := h x (List.mem_cons_self x xs)
    have ht := ih fun a ha => h a (List.mem_cons_of_mem x ha)
    simp [promiseAll, hx, ht]

theorem log_queryMultiVector_of_child_ok (c : Collaborators) (query : String)
    (kParents : Option Nat) (childDocs : List Document)
    (hchild : c.similaritySearch query 10 childFilter = .ok childDocs) :
    (queryMultiVector c query kParents).log =
      Call.similaritySearch query 10 childFilter ::
        (ContextualCompressionRetriever.invoke c (kParents.getD 3)
          (parentFilter (spreadNewSet (childDocs.map fun child => child.metadata.parentId)))
          query).log := by
  simp only [queryMultiVector, hchild]
  split <;> rfl

theorem result_queryMultiVector_of_child_ok (c : Collaborators) (query : String)
    (kParents : Option Nat) (childDocs : List Document)
    (hchild : c.similaritySearch query 10 childFilter = .ok childDocs) :
    (queryMultiVector c query kParents).result =
      (ContextualCompressionRetriever.invoke c (kParents.getD 3)
          (parentFilter (spreadNewSet (childDocs.map fun child => child.metadata.parentId)))
          query).result.map fun docs => { query := query, retrievedDocs := docs } := by
  simp only [queryMultiVector, hchild]
  split <;> rename_i h <;> rw [h] <;> rfl

/-- Claim C9. When the child search, the parent retrieval and the compressor succeed,
`queryMultiVector` returns the input query together with the compressor's output
over the documents of the parent retrieval; that retrieval is made with
`k = kParents` (`3` when the argument is omitted) and the filter `docType = "parent"`
and `source ∈ parentChunkIds`, where `parentChunkIds` is the deduplicated `parentId`
list of the child search, itself made with `k = 10` and the filter `docType = "child"`. -/
theorem queryMultiVector_result (c : Collaborators) (query : String) (kParents : Option Nat)
    (childDocs parentDocs retrievedDocs : List Document)
    (hchild : c.similaritySearch query 10 { docType := "child", sourceIn := none } =
      .ok childDocs)
    (hparent : c.similaritySearch query (kParents.getD 3)
        { docType := "parent"
          sourceIn := some (spreadNewSet (childDocs.map fun child => child.metadata.parentId)) } =
      .ok parentDocs)
    (hcompress : (LLMChainExtractor.compressDocuments c.compress parentDocs query).result =
      .ok retrievedDocs) :
    (queryMultiVector c query kParents).result =
      .ok { query := query, retrievedDocs := retrievedDocs } ∧
    (queryMultiVector c query kParents).log =
      [Call.similaritySearch query 10 { docType := "child", sourceIn := none },
       Call.similaritySearch query (kParents.getD 3)
        { docType := "parent"
          sourceIn := some (spreadNewSet (childDocs.map fun child => child.metadata.parentId)) }] ++
      parentDocs.map fun doc => Call.compress query doc := by
  constructor
  · simp only [childFilter, parentFilter, queryMultiVector,
      ContextualCompressionRetriever.invoke, hchild, hparent, hcompress]
  · simp only [childFilter, parentFilter, queryMultiVector,
      ContextualCompressionRetriever.invoke, hchild, hparent, hcompress]
    rfl

/-- Witness for `queryMultiVector_result`: a child search that finds `exampleChild`, a
parent retrieval of three parents, a compressor that returns an excerpt of each. -/
theorem queryMultiVector_result_witness :
    (queryMultiVector reliableCollaborators "q" none).result =
      .ok { query := "q", retrievedDocs := exampleParents.map exampleExcerpt } ∧
    (queryMultiVector reliableCollaborators "q" none).log =
      [Call.similaritySearch "q" 10 { docType := "child", sourceIn := none },
       Call.similaritySearch "q" 3
        { docType := "parent"
          sourceIn := some [some "3f2b8c1e-5a4d-4e6f-9b7a-0c1d2e3f4a5b"] }] ++
      exampleParents.map fun doc => Call.compress "q" doc :=
  queryMultiVector_result reliableCollaborators "q" none [exampleChild] exampleParents
    (exampleParents.map exampleExcerpt) rfl rfl rfl

/-- Claim C6, refuted on an empty index: the child search returns no result, and
`queryMultiVector` still queries the store for parents, with `source ∈ []`. -/
theorem queryMultiVector_queries_with_empty_filter :
    emptyIndexCollaborators.similaritySearch "q" 10 { docType := "child", sourceIn := none } =
      .ok [] ∧
    (queryMultiVector emptyIndexCollaborators "q" none).log =
      [Call.similaritySearch "q" 10 { docType := "child", sourceIn := none },
       Call.similaritySearch "q" 3 { docType := "parent", sourceIn := some [] }] ∧
    ¬ (∀ call ∈ (queryMultiVector emptyIndexCollaborators "q" none).log,
        ∀ k ids, call ≠ Call.similaritySearch "q" k { docType := "parent", sourceIn := some ids }) := by
  refine ⟨rfl, rfl, ?_⟩
  intro h
  exact h (Call.similaritySearch "q" 3 { docType := "parent", sourceIn := some [] })
    (by decide) 3 [] rfl

/-- Claim C6, amended. When the child search returns no result, `queryMultiVector` does not
short-circuit: its second call is the parent retrieval with `k = kParents` and the
filter `docType = "parent"` and `source ∈ []`, and its result is that of the
compression retriever. When that retrieval returns no document, no LLM call is
made and the result is the query with an empty passage sequence. -/
theorem queryMultiVector_empty_child_search (c : Collaborators) (query : String)
    (kParents : Option Nat)
    (hchild : c.similaritySearch query 10 { docType := "child", sourceIn := none } = .ok []) :
    (queryMultiVector c query kParents).log.take 2 =
      [Call.similaritySearch query 10 { docType := "child", sourceIn := none },
       Call.similaritySearch query (kParents.getD 3)
        { docType := "parent", sourceIn := some [] }] ∧
    (queryMultiVector c query kParents).result =
      (ContextualCompressionRetriever.invoke c (kParents.getD 3)
        { docType := "parent", sourceIn := some [] } query).result.map
        (fun docs => { query := query, retrievedDocs := docs }) ∧
    (c.similaritySearch query (kParents.getD 3) { docType := "parent", sourceIn := some [] } =
        .ok [] →
      (queryMultiVector c query kParents).result = .ok { query := query, retrievedDocs := [] } ∧
      compressCalls (queryMultiVector c query kParents).log = []) := by
  have hlog := log_queryMultiVector_of_child_ok c query kParents [] hchild
  have hres := result_queryMultiVector_of_child_ok c query kParents [] hchild
  simp only [List.map_nil, spreadNewSet, List.foldl_nil, childFilter, parentFilter] at hlog hres
  refine ⟨?_, hres, ?_⟩
  · rw [hlog]
    simp only [ContextualCompressionRetriever.invoke]
    split <;> rfl
  · intro hparent
    rw [hlog, hres]
    simp only [ContextualCompressionRetriever.invoke, hparent,
      LLMChainExtractor.compressDocuments, promiseAll]
    exact ⟨rfl, rfl⟩

/-- Witness for `queryMultiVector_empty_child_search`: the empty index. -/
theorem queryMultiVector_empty_child_search_witness :
    emptyIndexCollaborators.similaritySearch "q" 10 { docType := "child", sourceIn := none } =
      .ok [] ∧
    (queryMultiVector emptyIndexCollaborators "q" (some 5)).log.take 2 =
      [Call.similaritySearch "q" 10 { docType := "child", sourceIn := none },
       Call.similaritySearch "q" 5 { docType := "parent", sourceIn := some [] }] :=
  ⟨rfl, (queryMultiVector_empty_child_search emptyIndexCollaborators "q" (some 5) rfl).1⟩

/-- Claim C7, refuted on three retrieved parents: the compressor returns excerpts for the
first and the third and fails on the second, and `queryMultiVector` fails with the
error of the compressor instead of returning two passages. -/
theorem queryMultiVector_fails_on_partial_failure :
    exampleCollaborators.similaritySearch "q" 3
        { docType := "parent"
          sourceIn := some [some "3f2b8c1e-5a4d-4e6f-9b7a-0c1d2e3f4a5b"] } =
      .ok [exampleParent, exampleParent2, { exampleParent with pageContent := "third" }] ∧
    exampleCollaborators.compress "q" exampleParent = .ok (some (exampleExcerpt exampleParent)) ∧
    exampleCollaborators.compress "q" exampleParent2 = .error "provider timeout" ∧
    exampleCollaborators.compress "q" { exampleParent with pageContent := "third" } =
      .ok (some (exampleExcerpt { exampleParent with pageContent := "third" })) ∧
    (queryMultiVector exampleCollaborators "q" none).result = .error "provider timeout" := by
  exact ⟨rfl, rfl, rfl, rfl, rfl⟩

/-- Claim C7, amended. Nothing is caught in `queryMultiVector`: for every ranked list of
retrieved parent chunks, if the compressor fails on some chunk the query fails;
if it succeeds on every chunk the query returns exactly the excerpts of the
chunks in which it found relevant content, in the original rank order. -/
theorem queryMultiVector_compressor_outcome (c : Collaborators) (query : String)
    (kParents : Option Nat) (childDocs parentDocs : List Document)
    (hchild : c.similaritySearch query 10 { docType := "child", sourceIn := none } =
      .ok childDocs)
    (hparent : c.similaritySearch query (kParents.getD 3)
        { docType := "parent"
          sourceIn := some (spreadNewSet (childDocs.map fun child => child.metadata.parentId)) } =
      .ok parentDocs) :
    ((∃ doc ∈ parentDocs, ∃ e, c.compress query doc = .error e) →
      ∃ e, (queryMultiVector c query kParents).result = .error e) ∧
    (∀ excerpt : Document → Option Document,
      (∀ doc ∈ parentDocs, c.compress query doc = .ok (excerpt doc)) →
      (queryMultiVector c query kParents).result =
        .ok { query := query, retrievedDocs := parentDocs.filterMap excerpt }) := by
  have hres := result_queryMultiVector_of_child_ok c query kParents childDocs hchild
  simp only [childFilter, parentFilter, ContextualCompressionRetriever.invoke, hparent,
    LLMChainExtractor.compressDocuments] at hres
  constructor
  · rintro ⟨doc, hdoc, e, he⟩
    have hmem : Except.error e ∈ parentDocs.map fun doc => c.compress query doc :=
      List.mem_map.mpr ⟨doc, hdoc, he⟩
    obtain ⟨e', he'⟩ := promiseAll_error_of_mem _ e hmem
    rw [he'] at hres
    exact ⟨e', hres⟩
  · intro excerpt hall
    rw [promiseAll_map_ok parentDocs (fun doc => c.compress query doc) excerpt hall] at hres
    rw [hres]
    simp [Except.map, List.filterMap_map]
    rfl

/-- Witness for `queryMultiVector_compressor_outcome`: three retrieved parents and a
compressor that returns an excerpt of each give three passages, in rank order. -/
theorem queryMultiVector_compressor_outcome_witness :
    (queryMultiVector reliableCollaborators "q" none).result =
      .ok { query := "q"
            retrievedDocs := exampleParents.filterMap fun doc => some (exampleExcerpt doc) } :=
  (queryMultiVector_compressor_outcome reliableCollaborators "q" none [exampleChild]
    exampleParents rfl rfl).2 (fun doc => some (exampleExcerpt doc)) (fun _ _ => rfl)

/-! ## Ingest pipeline -/

theorem addDocumentsCalls_map_load (urls : List String) :
    addDocumentsCalls (urls.map Call.load) = [] := by
  induction urls with
  | nil => rfl
  | cons u us ih =>
    simp only [addDocumentsCalls, List.map_cons, List.filterMap_cons] at ih ⊢
    exact ih

/-- Claim C8, refuted on one url whose page gives one parent chunk and one child chunk:
the two chunks are handed to the store, and the function resolves to `undefined`,
not to the counts. -/
theorem docEmbeddingMultiVector_returns_undefined :
    (addDocumentsCalls (docEmbeddingMultiVector exampleCollaborators ["u"]).log).map
        (fun docs => docs.map fun d => d.metadata.docType) =
      [[some "parent", some "child"]] ∧
    (docEmbeddingMultiVector exampleCollaborators ["u"]).result = .ok none ∧
    (docEmbeddingMultiVector exampleCollaborators ["u"]).result ≠ .ok (some (1, 1)) := by
  refine ⟨by decide, rfl, ?_⟩
  intro h
  cases h

/-- Claim C8, amended. For every list of urls for which the loader and the store succeed,
`docEmbeddingMultiVector` returns `undefined` to its caller; the store receives
`[...parentDocs, ...childDocs]` in a single `addDocuments` call, and the numbers of
parent and child chunks, the lengths of `parentDocs` and `childDocs`, are written
to the console. -/
theorem docEmbeddingMultiVector_logs_counts (c : Collaborators) (urls : List String)
    (rawDocs : List Document)
    (hload : (loadRawDocs c.load urls).result = .ok rawDocs)
    (hadd : c.addDocuments
        (createParentDocs c.parentSplitter c.uuidv4 rawDocs ++
          createChildDocs c.childSplitter
            (createParentDocs c.parentSplitter c.uuidv4 rawDocs)) = .ok ()) :
    (docEmbeddingMultiVector c urls).result = .ok none ∧
    addDocumentsCalls (docEmbeddingMultiVector c urls).log =
      [createParentDocs c.parentSplitter c.uuidv4 rawDocs ++
        createChildDocs c.childSplitter (createParentDocs c.parentSplitter c.uuidv4 rawDocs)] ∧
    Call.consoleLog ("✅ Single index: " ++
        toString (createParentDocs c.parentSplitter c.uuidv4 rawDocs).length ++
        " parent chunks + " ++
        toString (createChildDocs c.childSplitter
          (createParentDocs c.parentSplitter c.uuidv4 rawDocs)).length ++
        " child chunks") ∈ (docEmbeddingMultiVector c urls).log := by
  have hlog : (loadRawDocs c.load urls).log = urls.map Call.load := rfl
  have h := addDocumentsCalls_map_load urls
  simp only [addDocumentsCalls] at h
  refine ⟨?_, ?_, ?_⟩
  · simp only [docEmbeddingMultiVector, hload, hadd]
  · simp only [docEmbeddingMultiVector, hload, hadd, hlog, addDocumentsCalls]
    simp [List.filterMap_append, h]
  · simp only [docEmbeddingMultiVector, hload, hadd]
    simp

/-- Witness for `docEmbeddingMultiVector_logs_counts`: one url, one parent chunk and one
child chunk. -/
theorem docEmbeddingMultiVector_logs_counts_witness :
    (loadRawDocs exampleCollaborators.load ["u"]).result = .ok [examplePage] ∧
    (docEmbeddingMultiVector exampleCollaborators ["u"]).result = .ok none ∧
    Call.consoleLog "✅ Single index: 1 parent chunks + 1 child chunks" ∈
      (docEmbeddingMultiVector exampleCollaborators ["u"]).log :=
  ⟨rfl,
   (docEmbeddingMultiVector_logs_counts exampleCollaborators ["u"] [examplePage] rfl rfl).1,
   (docEmbeddingMultiVector_logs_counts exampleCollaborators ["u"] [examplePage] rfl rfl).2.2⟩

end MultiVector
